import Mathlib

/-!
Shallow embedding of the command/orchestration core of the
node-red-contrib-sonos-plus repository (files src/Sonos-Commands.js and
src/Soap.js), together with theorems checking the specification claims.

JavaScript strings are modelled as Lean String values; JavaScript numbers
appearing in the modelled code paths are integers and are modelled as Int.
Objects produced by the external xml2js parser are modelled by the JsVal
tree type below.  External collaborators (the HTTP transport, the xml2js
parser, the URL parser) are passed in as oracle values: the Location URL of
a zone-group member is represented by its already-parsed hostname and port,
and the parse result of a response body is an explicit Except argument.
-/

namespace SonosPlus

/-- JavaScript String.prototype.indexOf for a fixed pattern: first index of
the pattern in the remaining character list, or -1. -/
def jsIndexOfAux (pat : List Char) : List Char → Nat → Int
  | [], i => if pat.isPrefixOf ([] : List Char) then (i : Int) else -1
  | s@(_ :: t), i => if pat.isPrefixOf s then (i : Int) else jsIndexOfAux pat t (i + 1)

/-- JavaScript xuri.indexOf(pat): index of the first occurrence of pat in
xuri, or -1 when pat does not occur. -/
def jsIndexOf (s pat : String) : Int :=
  jsIndexOfAux pat.data s.data 0

/-- JavaScript xuri.includes(pat). -/
def jsIncludes (s pat : String) : Bool :=
  jsIndexOf s pat ≥ 0

/-- JavaScript String.prototype.substring with its clamping and swapping
semantics: indices are clamped to [0, length] and swapped when start exceeds
stop. -/
def jsSubstring (s : String) (a b : Int) : String :=
  let len := s.length
  let a' := min (max a 0).toNat len
  let b' := min (max b 0).toNat len
  let lo := min a' b'
  let hi := max a' b'
  String.mk ((s.data.drop lo).take (hi - lo))

/-- Modelled from the spec: the helper isTruthyAndNotEmptyString of
Helper.js is not under src/.  For a string argument the spec states the
check is that the value is present, truthy and not the empty string, which
for a Lean String argument is exactly that it is nonempty. -/
def isTruthyAndNotEmptyStr (s : String) : Bool :=
  s ≠ ""

/-- Sonos-Commands.js getMusicServiceId: extracts the music service id from
a transport URI.  The source computes positionStart from indexOf of the
marker before the id, positionEnd from indexOf of the marker after it, and
takes the substring when positionStart exceeds 1 and positionEnd exceeds
positionStart. -/
def getMusicServiceId (xuri : String) : String :=
  if isTruthyAndNotEmptyStr xuri then
    let positionStart := jsIndexOf xuri "?sid=" + 5
    let positionEnd := jsIndexOf xuri "&flags="
    if positionStart > 1 ∧ positionEnd > positionStart then
      jsSubstring xuri positionStart positionEnd
    else ""
  else ""

/-- Soap.js encodeXml, per matched character: the five special XML
characters map to their entities, every other character stays itself. -/
def encodeXmlChar (c : Char) : String :=
  if c = '<' then "&lt;"
  else if c = '>' then "&gt;"
  else if c = '&' then "&amp;"
  else if c = '\'' then "&apos;"
  else if c = '"' then "&quot;"
  else String.mk [c]

/-- Soap.js encodeXml: xmlData.replace with a global single-character class
replaces each matched character independently, so the whole function is the
concatenation of the per-character translation. -/
def encodeXml (s : String) : String :=
  String.mk ((s.data.map (fun c => (encodeXmlChar c).data)).flatten)

/-- Sonos-Commands.js UPNP_CLASSES_STREAM. -/
def UPNP_CLASSES_STREAM : List String :=
  ["object.item.audioItem.audioBroadcast"]

/-- Sonos-Commands.js UPNP_CLASSES_QUEUE. -/
def UPNP_CLASSES_QUEUE : List String :=
  ["object.container.album.musicAlbum",
   "object.container.playlistContainer",
   "object.item.audioItem.musicTrack",
   "object.container",
   "object.container.playlistContainer#playlistItem"]

/-- Sonos-Commands.js getMySonosV3, classification step: the processingType
of an item is computed from its upnpClass by membership in the two fixed
class lists, with a final unconditional else branch. -/
def computeProcessingType (upnpClass : String) : String :=
  if UPNP_CLASSES_STREAM.contains upnpClass then "stream"
  else if UPNP_CLASSES_QUEUE.contains upnpClass then "queue"
  else "unsupported"

/-- Tree model of the JavaScript values handled by the modelled code: the
objects produced by xml2js (string leaves, attribute maps, element arrays)
and the plain argument/response objects. -/
inductive JsVal where
  | null
  | str (s : String)
  | num (n : Int)
  | obj (fields : List (String × JsVal))
  | arr (elems : List JsVal)

/-- Direct property access on a JavaScript object value: the value bound to
the key, or none when the key is absent or the value is not an object. -/
def getProp (v : JsVal) (key : String) : Option JsVal :=
  match v with
  | .obj fields => (fields.find? (fun kv => kv.1 = key)).map (·.2)
  | _ => none

/-- Modelled from the spec: getNestedProperty of Helper.js is not under
src/.  It walks a path of keys through nested objects. -/
def getNested (v : JsVal) : List String → Option JsVal
  | [] => some v
  | k :: rest =>
    match getProp v k with
    | some w => getNested w rest
    | none => none

/-- Modelled from the spec: isValidProperty of Helper.js is not under src/.
The spec states the check is presence, not truthiness: the nested property
exists (is not undefined). -/
def isValidProperty (v : JsVal) (path : List String) : Bool :=
  (getNested v path).isSome

/-- JavaScript delete result[key] on an object: removes the binding for the
key; other values are unchanged. -/
def deleteProp (v : JsVal) (key : String) : JsVal :=
  match v with
  | .obj fields => .obj (fields.filter (fun kv => kv.1 ≠ key))
  | other => other

/-- JavaScript String.prototype.split for a single-character separator,
over the character list: accumulates the current segment and starts a new
one at each separator. -/
def jsSplitCharAux (sep : Char) : List Char → List Char → List (List Char)
  | [], acc => [acc.reverse]
  | c :: rest, acc =>
    if c = sep then acc.reverse :: jsSplitCharAux sep rest []
    else jsSplitCharAux sep rest (c :: acc)

/-- Sonos-Commands.js executeActionV6, service name derivation: the SONOS
endpoint is split on slashes and the second-to-last segment is taken. -/
def serviceNameOf (endpoint : String) : String :=
  let tmp := (jsSplitCharAux '/' endpoint.data []).map String.mk
  tmp.getD (tmp.length - 2) ""

/-- Distinct throw sites of executeActionV6, in source order. -/
inductive ExecError where
  | missingArg (name : String)
  | invalidStatusCode
  | statusNot200
  | missingBody
  | parseFailed (msg : String)
  | invalidBodyXml
  | missingXmlnsU
  | unexpectedNamespace
  | missingOutArg (name : String)

/-- Result values of executeActionV6: the literal boolean true for actions
without outputs, a JavaScript value otherwise; undef models the JavaScript
undefined that indexing a deleted key would produce. -/
inductive ExecResult where
  | boolTrue
  | val (v : JsVal)
  | undef

/-- Sonos-Commands.js executeActionV6.  The action template (inArgs,
outArgs) is the entry of ACTIONS_TEMPLATESV6 for (endpoint, actionName);
the template database is a static JSON file, so the template is passed in
as data and the claims quantify over it.  The transport sendToPlayerV1 and
the xml2js parse of the response body are oracles: response is what the
transport returned, parseBody is the parse result of its body.  The second
component of the result records whether the transport was invoked. -/
def executeActionV6 (endpoint actionName : String) (inArgs outArgs : List String)
    (actionInArgs : JsVal) (response : JsVal) (parseBody : Except String JsVal) :
    Except ExecError ExecResult × Bool :=
  match inArgs.find? (fun property => !isValidProperty actionInArgs [property]) with
  | some property => (.error (.missingArg property), false)
  | none =>
    let serviceName := serviceNameOf endpoint
    -- from here on the transport has been invoked
    match getProp response "statusCode" with
    | none => (.error .invalidStatusCode, true)
    | some statusCode =>
      match statusCode with
      | .num n =>
        if n ≠ 200 then (.error .statusNot200, true)
        else if !isValidProperty response ["body"] then (.error .missingBody, true)
        else
          match parseBody with
          | .error e => (.error (.parseFailed e), true)
          | .ok bodyXml =>
            match getNested bodyXml ["s:Envelope", "s:Body", "u:" ++ actionName ++ "Response"] with
            | none => (.error .invalidBodyXml, true)
            | some resultNode =>
              match getProp resultNode "xmlns:u" with
              | none => (.error .missingXmlnsU, true)
              | some ns =>
                match ns with
                | .str nsStr =>
                  if nsStr ≠ "urn:schemas-upnp-org:service:" ++ serviceName ++ ":1" then
                    (.error .unexpectedNamespace, true)
                  else if outArgs.isEmpty then (.ok .boolTrue, true)
                  else
                    match outArgs.find? (fun property => !isValidProperty resultNode [property]) with
                    | some property => (.error (.missingOutArg property), true)
                    | none =>
                      let cleaned := deleteProp resultNode "xmlns:u"
                      if outArgs.length = 1 then
                        match getProp cleaned (outArgs.headD "") with
                        | some v => (.ok (.val v), true)
                        | none => (.ok .undef, true)
                      else (.ok (.val cleaned), true)
                | _ => (.error .unexpectedNamespace, true)
      | _ => (.error .statusNot200, true)

/-- Device calls issued by the restore phases, recorded as a trace. -/
inductive PlayerAction where
  | setVolume (memberIndex : Nat) (volume : Option Int)
  | setAVTransportURI (uri : String) (metadata : String)
  | selectTrack (track : Int)
  | seek (relTime : String)
  | play
  | setMuted (memberIndex : Nat) (muted : Bool)
deriving DecidableEq, Repr

/-- GetMediaInfo fields used by playGroupNotification. -/
structure MediaInfo where
  CurrentURI : String
  CurrentURIMetaData : String
  NrTracks : Int
deriving DecidableEq, Repr

/-- GetPositionInfo fields used by playGroupNotification. -/
structure PositionInfo where
  Track : Int
  RelTime : String
  TrackDuration : String
deriving DecidableEq, Repr

/-- The snapshot captured at the start of playGroupNotification. -/
structure NotifySnapshot where
  wasPlaying : Bool
  mediaInfo : MediaInfo
  positionInfo : PositionInfo
  memberVolumes : List Int
deriving DecidableEq, Repr

/-- The options of playGroupNotification that the restore phase reads. -/
structure NotifyOptions where
  uri : String
  volume : Int
  sameVolume : Bool
deriving DecidableEq, Repr

/-- Sonos-Commands.js playGroupNotification, restore phase (after the timed
wait): the sequence of device calls it issues, in source order.  Volume
restoration first (coordinator, then the other members when sameVolume),
then the transport URI guarded by the session-bound marker test on the
notification URI, then the best-effort track reselect and relative-time
seek guarded only by their own data conditions, then Play guarded by the
captured playing state and the same marker test. -/
def groupNotificationRestore (membersLen : Nat) (options : NotifyOptions)
    (snapshot : NotifySnapshot) : List PlayerAction :=
  (if options.volume ≠ -1 then [PlayerAction.setVolume 0 snapshot.memberVolumes[0]?] else [])
  ++ (if options.sameVolume then
        (List.range' 1 (membersLen - 1)).map
          (fun index => PlayerAction.setVolume index snapshot.memberVolumes[index]?)
      else [])
  ++ (if !(jsIncludes options.uri "x-sonos-vli") then
        [PlayerAction.setAVTransportURI snapshot.mediaInfo.CurrentURI
          snapshot.mediaInfo.CurrentURIMetaData]
      else [])
  ++ (if snapshot.positionInfo.Track ≠ 0 ∧ 1 < snapshot.positionInfo.Track
         ∧ 1 < snapshot.mediaInfo.NrTracks then
        [PlayerAction.selectTrack snapshot.positionInfo.Track]
      else [])
  ++ (if snapshot.positionInfo.RelTime ≠ "" ∧ snapshot.positionInfo.TrackDuration ≠ "0:00:00" then
        [PlayerAction.seek snapshot.positionInfo.RelTime]
      else [])
  ++ (if snapshot.wasPlaying ∧ !(jsIncludes options.uri "x-sonos-vli") then
        [PlayerAction.play]
      else [])

/-- Per-member data of a createGroupSnapshot snapshot: volume -1 and
mutestate null are the not-captured sentinels. -/
structure MemberSnap where
  volume : Int
  mutestate : Option String
deriving DecidableEq, Repr

instance : Inhabited MemberSnap := ⟨⟨-1, none⟩⟩

/-- The snapshot consumed by restoreGroupSnapshot. -/
structure GroupSnapshot where
  CurrentURI : String
  CurrentURIMetadata : String
  NrTracks : Int
  Track : Int
  RelTime : String
  TrackDuration : String
  memberData : List MemberSnap
deriving DecidableEq, Repr

/-- Distinct failure outcomes of restoreGroupSnapshot: the initial
transport-URI call, a member volume call, a member mute call, or the
JavaScript TypeError from reading a field of an out-of-range memberData
entry. -/
inductive RestoreError where
  | setUriFailed
  | volumeFailed (memberIndex : Nat)
  | muteFailed (memberIndex : Nat)
  | typeError
deriving DecidableEq, Repr

/-- Oracle describing which device calls fail during a restore run.  The
selectTrack and seek flags exist but the source catches those failures, so
they never influence the outcome. -/
structure RestoreOracle where
  failSetUri : Bool := false
  failSelectTrack : Bool := false
  failSeek : Bool := false
  failVolume : Nat → Bool := fun _ => false
  failMute : Nat → Bool := fun _ => false

/-- Member loop of restoreGroupSnapshot: for each member index, reapply
volume when the captured volume is not -1 and mutestate when it is not
null; a failing call aborts the loop with its error. -/
def restoreMembersLoop (o : RestoreOracle) (memberData : List MemberSnap) :
    List Nat → Except RestoreError Unit × List PlayerAction
  | [] => (.ok (), [])
  | index :: rest =>
    match memberData[index]? with
    | none => (.error .typeError, [])
    | some md =>
      let volActs := if md.volume ≠ -1 then [PlayerAction.setVolume index (some md.volume)] else []
      if md.volume ≠ -1 ∧ o.failVolume index then
        (.error (.volumeFailed index), volActs)
      else
        let muteActs :=
          if md.mutestate ≠ none then
            [PlayerAction.setMuted index (md.mutestate = some "on")]
          else []
        if md.mutestate ≠ none ∧ o.failMute index then
          (.error (.muteFailed index), volActs ++ muteActs)
        else
          let next := restoreMembersLoop o memberData rest
          (next.1, volActs ++ muteActs ++ next.2)

/-- Sonos-Commands.js restoreGroupSnapshot: reapply the coordinator URI
(propagating failure), attempt track reselect and seek when their data
conditions hold (failures caught by the source, so the oracle flags for
them do not affect the outcome), then reapply each member volume and mute
(propagating failure), and return true. -/
def restoreGroupSnapshot (membersLen : Nat) (snapshot : GroupSnapshot)
    (o : RestoreOracle) : Except RestoreError Bool × List PlayerAction :=
  let uriAct := [PlayerAction.setAVTransportURI snapshot.CurrentURI snapshot.CurrentURIMetadata]
  if o.failSetUri then (.error .setUriFailed, uriAct)
  else
    let trackActs :=
      if snapshot.Track ≠ 0 ∧ 1 < snapshot.Track ∧ 1 < snapshot.NrTracks then
        [PlayerAction.selectTrack snapshot.Track]
      else []
    let seekActs :=
      if snapshot.RelTime ≠ "" ∧ snapshot.TrackDuration ≠ "0:00:00" then
        [PlayerAction.seek snapshot.RelTime]
      else []
    let loop := restoreMembersLoop o snapshot.memberData (List.range membersLen)
    match loop.1 with
    | .ok _ => (.ok true, uriAct ++ trackActs ++ seekActs ++ loop.2)
    | .error e => (.error e, uriAct ++ trackActs ++ seekActs ++ loop.2)

/-- One ZoneGroupMember of the all-groups response.  The Location URL is
represented already parsed into hostname and port (URL parsing is done by
the external URL class in the source).  Invisible is the optional raw
attribute value, a string such as "1" when present. -/
structure ZoneMember where
  UUID : String
  ZoneName : String
  locationHostname : String
  locationPort : String
  Invisible : Option String
deriving DecidableEq, Repr

/-- One group of the all-groups response: host and port of the group
(the coordinator address), the declared coordinator UUID, id, name, and
the member list. -/
structure Group where
  host : String
  port : String
  Coordinator : String
  ID : String
  Name : String
  ZoneGroupMember : List ZoneMember
deriving DecidableEq, Repr

/-- JavaScript truthiness of an optional string attribute: present and
nonempty. -/
def jsTruthyOptStr : Option String → Bool
  | some s => s ≠ ""
  | none => false

/-- Sonos-Commands.js sortedGroupArray, invisible computation per member:
false by default; when the Invisible attribute is truthy, the flag is the
strict comparison of the attribute with the string "1". -/
def memberInvisibleFlag (zm : ZoneMember) : Bool :=
  if jsTruthyOptStr zm.Invisible then zm.Invisible = some "1" else false

/-- Entry of the array built by sortedGroupArray.  The coordinator seed at
index 0 starts with the three fields that are filled later as none. -/
structure SortedMember where
  urlHostname : String
  urlPort : String
  baseUrl : String
  sonosName : Option String
  uuid : Option String
  invisible : Option Bool
deriving DecidableEq, Repr

/-- The coordinator seed pushed first by sortedGroupArray, built from the
group host and port; sonosName, uuid and invisible are filled only when a
member at the coordinator hostname is seen. -/
def coordInit (g : Group) : SortedMember :=
  { urlHostname := g.host
    urlPort := g.port
    baseUrl := "http://" ++ g.host ++ ":" ++ g.port
    sonosName := none
    uuid := none
    invisible := none }

/-- Update of the index-0 entry when a member at the coordinator hostname
is found. -/
def updateCoord (m : SortedMember) (zm : ZoneMember) : SortedMember :=
  { m with
    sonosName := some zm.ZoneName
    uuid := some zm.UUID
    invisible := some (memberInvisibleFlag zm) }

/-- Entry pushed for a member whose hostname differs from the coordinator
hostname. -/
def pushedEntry (zm : ZoneMember) : SortedMember :=
  { urlHostname := zm.locationHostname
    urlPort := zm.locationPort
    baseUrl := "http://" ++ zm.locationHostname ++ ":" ++ zm.locationPort
    sonosName := some zm.ZoneName
    uuid := some zm.UUID
    invisible := some (memberInvisibleFlag zm) }

/-- Member loop of sortedGroupArray: push non-coordinator members at the
end, update index 0 for members at the coordinator hostname. -/
def sortedGroupArrayGo (g : Group) : List SortedMember → List ZoneMember → List SortedMember
  | members, [] => members
  | members, zm :: rest =>
    if zm.locationHostname ≠ g.host then
      sortedGroupArrayGo g (members ++ [pushedEntry zm]) rest
    else
      sortedGroupArrayGo g (members.modifyHead (fun m => updateCoord m zm)) rest

/-- Sonos-Commands.js sortedGroupArray: guard the index, seed the array
with the coordinator entry, then run the member loop. -/
def sortedGroupArray (allGroupsData : List Group) (groupIndex : Int) :
    Except String (List SortedMember) :=
  if groupIndex < 0 ∨ groupIndex ≥ allGroupsData.length then
    .error "index is out of range"
  else
    match allGroupsData[groupIndex.toNat]? with
    | none => .error "index is out of range"
    | some g => .ok (sortedGroupArrayGo g [coordInit g] g.ZoneGroupMember)

/-- Match test of the group scan in getGroupMemberDataV2: by zone name when
searching by name, else by location hostname; in both branches the member
must be visible, where visible is the negated truthiness of the Invisible
attribute. -/
def memberMatches (searchByName : Bool) (playerName sonosHost : String) (zm : ZoneMember) : Bool :=
  let visible := !(jsTruthyOptStr zm.Invisible)
  if searchByName then zm.ZoneName = playerName && visible
  else zm.locationHostname = sonosHost && visible

/-- Group scan of getGroupMemberDataV2: first group containing a matching
member wins (the source breaks out of both loops); the hostname recorded is
the matched member location hostname. -/
def findPlayerGroup (searchByName : Bool) (playerName sonosHost : String) :
    List Group → Option (Nat × String)
  | [] => none
  | g :: rest =>
    match g.ZoneGroupMember.find? (memberMatches searchByName playerName sonosHost) with
    | some zm => some (0, zm.locationHostname)
    | none => (findPlayerGroup searchByName playerName sonosHost rest).map
        (fun r => (r.1 + 1, r.2))

/-- Result record of getGroupMemberDataV2. -/
structure GroupData where
  playerIndex : Int
  members : List SortedMember
  groupId : String
  groupName : String
deriving DecidableEq, Repr

/-- Sonos-Commands.js getGroupMemberDataV2: the all-groups response is the
already-retrieved list (the undefined/not-array guards concern the
transport layer and cannot fire for a list input).  Scan for the player,
sort the matched group, keep only entries whose invisible field is exactly
false, and locate the player index by hostname (JavaScript findIndex, -1
when absent). -/
def getGroupMemberDataV2 (allGroupsData : List Group) (sonosHost : String)
    (playerName : Option String) : Except String GroupData :=
  let searchByName := jsTruthyOptStr playerName
  match findPlayerGroup searchByName (playerName.getD "") sonosHost allGroupsData with
  | none => .error "could not find given player (must be visible) in any group"
  | some (playerGroupIndex, usedPlayerHostname) =>
    match sortedGroupArray allGroupsData (playerGroupIndex : Int) with
    | .error e => .error e
    | .ok sorted =>
      let members := sorted.filter (fun m => m.invisible = some false)
      let playerIndex : Int :=
        match members.findIdx? (fun m => m.urlHostname = usedPlayerHostname) with
        | some i => (i : Int)
        | none => -1
      match allGroupsData[playerGroupIndex]? with
      | none => .error "index is out of range"
      | some g => .ok { playerIndex := playerIndex, members := members,
                        groupId := g.ID, groupName := g.Name }

/-- Entry of the getAllPlayerList result. -/
structure PlayerEntry where
  sonosName : String
  urlHostname : String
  urlPort : String
  baseUrl : String
  uuid : String
  isCoordinator : Bool
  groupIndex : Nat
deriving DecidableEq, Repr

/-- Visibility computation of getAllPlayerList as written in the source:
visible starts true and, when the member owns an Invisible attribute, is
assigned the attribute value itself (no negation), whose truthiness then
decides inclusion. -/
def getAllPlayerListVisible (zm : ZoneMember) : Bool :=
  match zm.Invisible with
  | some s => s ≠ ""
  | none => true

/-- Sonos-Commands.js getAllPlayerList: every member whose computed visible
value is truthy is emitted, annotated with its group index and with
isCoordinator comparing the group Coordinator with the member UUID. -/
def getAllPlayerList (allGroupsData : List Group) : List PlayerEntry :=
  (allGroupsData.enum.map (fun gi =>
    gi.2.ZoneGroupMember.filterMap (fun zm =>
      if getAllPlayerListVisible zm then
        some { sonosName := zm.ZoneName
               urlHostname := zm.locationHostname
               urlPort := zm.locationPort
               baseUrl := "http://" ++ zm.locationHostname ++ ":" ++ zm.locationPort
               uuid := zm.UUID
               isCoordinator := gi.2.Coordinator = zm.UUID
               groupIndex := gi.1 }
      else none))).flatten

/-- Last member of a group whose location hostname equals the group host:
this is the member whose data ends up on the index-0 entry of
sortedGroupArray, because each such member overwrites the previous update. -/
def lastHostMatch (g : Group) : Option ZoneMember :=
  g.ZoneGroupMember.foldl
    (fun acc zm => if zm.locationHostname = g.host then some zm else acc) none

/-- Cumulative effect on the index-0 entry of the update branch of the
sortedGroupArray member loop. -/
def applyHostUpdates (g : Group) (m : SortedMember) : List ZoneMember → SortedMember
  | [] => m
  | zm :: rest =>
    if zm.locationHostname = g.host then applyHostUpdates g (updateCoord m zm) rest
    else applyHostUpdates g m rest

/-- Entries appended after index 0 by the sortedGroupArray member loop. -/
def pushedMembers (g : Group) (zms : List ZoneMember) : List SortedMember :=
  (zms.filter (fun zm => zm.locationHostname ≠ g.host)).map pushedEntry

/-- One entry of the Db-MusicServices.json table (a static data file):
service id and service name. -/
structure MusicService where
  sid : String
  name : String
deriving DecidableEq, Repr

/-- Sonos-Commands.js getMusicServiceName: look the sid up in the service
table, empty string for a blank sid or an unknown one.  The table is a
static JSON file, passed in as data. -/
def getMusicServiceName (services : List MusicService) (sid : String) : String :=
  if sid ≠ "" then
    match services.find? (fun service => service.sid = sid) with
    | some service => service.name
    | none => ""
  else ""

/-- Distinct throw sites of didlXmlToArray, in source order. -/
inductive DidlError where
  | missingDidlInput
  | missingItemName
  | parseFailed (msg : String)
  | invalidParse
  | missingId
  | missingTitle
deriving DecidableEq, Repr

/-- Normalized item record produced by didlXmlToArray.  The source seeds
every field with the empty string and then assigns raw parsed values, so
the value-bearing fields are JsVal with a string default. -/
structure DidlBrowseItem where
  id : JsVal := JsVal.str ""
  title : JsVal := JsVal.str ""
  artist : JsVal := JsVal.str ""
  uri : JsVal := JsVal.str ""
  artUri : JsVal := JsVal.str ""
  metadata : JsVal := JsVal.str ""
  sid : String := ""
  serviceName : String := ""
  upnpClass : JsVal := JsVal.str ""
  processingType : String := ""

/-- String content of a parsed text node.  The xml2js charkey option makes
text content a string, which is the only case the source feeds into
getMusicServiceId. -/
def jsValAsString : JsVal → String
  | .str s => s
  | _ => ""

/-- Modelled from the spec: isTruthyAndNotEmptyString of Helper.js applied
to a parsed JavaScript value, used by didlXmlToArray on the xml2js result:
the value is truthy and is not the empty string. -/
def isTruthyAndNotEmptyVal : JsVal → Bool
  | .null => false
  | .str s => s ≠ ""
  | .num n => n ≠ 0
  | .obj _ => true
  | .arr _ => true

/-- Per-item transformation of didlXmlToArray: id and title are required,
the other fields are optional with empty-string defaults; a res text
content also derives sid and serviceName; an album-art array contributes
its first entry. -/
def transformDidlItem (services : List MusicService) (item : JsVal) :
    Except DidlError DidlBrowseItem :=
  match getProp item "id" with
  | none => .error .missingId
  | some idVal =>
    match getProp item "dc:title" with
    | none => .error .missingTitle
    | some titleVal =>
      let base : DidlBrowseItem := { id := idVal, title := titleVal }
      let base :=
        match getProp item "dc:creator" with
        | some a => { base with artist := a }
        | none => base
      let base :=
        match getNested item ["res", "uriIdentifier"] with
        | some u =>
          let sid := getMusicServiceId (jsValAsString u)
          { base with uri := u, sid := sid, serviceName := getMusicServiceName services sid }
        | none => base
      let base :=
        match getProp item "upnp:class" with
        | some c => { base with upnpClass := c }
        | none => base
      let base :=
        match getProp item "upnp:albumArtURI" with
        | some (JsVal.arr (a :: _)) => { base with artUri := a }
        | some (JsVal.arr []) => base
        | some v => { base with artUri := v }
        | none => base
      let base :=
        match getProp item "r:resMD" with
        | some m => { base with metadata := m }
        | none => base
      .ok base

/-- Sonos-Commands.js didlXmlToArray.  The raw DIDL string and the item tag
name are the source parameters (absent modelled as none); the xml2js parse
of the string is the oracle parse argument.  Empty or absent inputs are
rejected before parsing; a parse without the DIDL-Lite/itemName path yields
the empty list; a single (non-array) node still yields a one-element list;
each node then goes through the per-item transformation, whose failure
aborts the whole call. -/
def didlXmlToArray (didlXml itemName : Option String)
    (parse : Except String JsVal) (services : List MusicService) :
    Except DidlError (List DidlBrowseItem) :=
  if !(match didlXml with | some s => isTruthyAndNotEmptyStr s | none => false) then
    .error .missingDidlInput
  else if !(match itemName with | some s => isTruthyAndNotEmptyStr s | none => false) then
    .error .missingItemName
  else
    match parse with
    | .error e => .error (.parseFailed e)
    | .ok didlJson =>
      if !(isTruthyAndNotEmptyVal didlJson) then .error .invalidParse
      else
        let originalItems :=
          match getNested didlJson ["DIDL-Lite", (itemName.getD "")] with
          | some (JsVal.arr items) => items
          | some single => [single]
          | none => []
        originalItems.mapM (transformDidlItem services)

/-! Concrete instances used by counterexamples and witnesses. -/

/-- A group whose declared Coordinator UUID does not belong to the member
living at the group host address. -/
def groupC1ce : Group :=
  { host := "192.168.10.1", port := "1400", Coordinator := "RINCON_AAAA",
    ID := "RINCON_AAAA:12", Name := "Living",
    ZoneGroupMember :=
      [{ UUID := "RINCON_BBBB", ZoneName := "Living", locationHostname := "192.168.10.1",
         locationPort := "1400", Invisible := none }] }

/-- Coordinator member of the consistent witness group. -/
def zmC1w : ZoneMember :=
  { UUID := "RINCON_W1", ZoneName := "Office", locationHostname := "192.168.20.1",
    locationPort := "1400", Invisible := none }

/-- A consistent two-member group: the member at the group host carries the
declared Coordinator UUID. -/
def groupC1w : Group :=
  { host := "192.168.20.1", port := "1400", Coordinator := "RINCON_W1",
    ID := "RINCON_W1:5", Name := "Office",
    ZoneGroupMember :=
      [zmC1w,
       { UUID := "RINCON_W2", ZoneName := "Desk", locationHostname := "192.168.20.2",
         locationPort := "1400", Invisible := none }] }

/-- Notification options whose uri does not carry the session-bound marker. -/
def optionsC2 : NotifyOptions :=
  { uri := "http://host/ding.mp3", volume := -1, sameVolume := false }

/-- Snapshot whose captured content URI carries the session-bound marker
and whose track and position data satisfy the reapply conditions. -/
def snapshotC2 : NotifySnapshot :=
  { wasPlaying := true
    mediaInfo := { CurrentURI := "x-sonos-vli:hh:1,spotify:abc", CurrentURIMetaData := "",
                   NrTracks := 5 }
    positionInfo := { Track := 2, RelTime := "0:01:00", TrackDuration := "0:03:00" }
    memberVolumes := [] }

/-- A group with one ordinary member and one member flagged Invisible. -/
def groupC3 : Group :=
  { host := "192.168.30.1", port := "1400", Coordinator := "RINCON_C3A",
    ID := "RINCON_C3A:77", Name := "Bath",
    ZoneGroupMember :=
      [{ UUID := "RINCON_C3A", ZoneName := "Bath", locationHostname := "192.168.30.1",
         locationPort := "1400", Invisible := none },
       { UUID := "RINCON_C3B", ZoneName := "BathSub", locationHostname := "192.168.30.2",
         locationPort := "1400", Invisible := some "1" }] }

/-- The example transport URI of the specification, carrying sid 201. -/
def exUriC4 : String := "x-rincon-cpcontainer:abc123?sid=201&flags=8300&sn=14"

/-- A transport response carrying status 200 and a body. -/
def responseC7 : JsVal :=
  JsVal.obj [("statusCode", JsVal.num 200), ("body", JsVal.str "xml")]

/-- A response node carrying the expected namespace, the outputs A and B,
and one extra key C the device also returned. -/
def resultNodeC7 : JsVal :=
  JsVal.obj [("xmlns:u", JsVal.str "urn:schemas-upnp-org:service:AVTransport:1"),
             ("A", JsVal.str "1"), ("B", JsVal.str "2"), ("C", JsVal.str "3")]

/-- A parsed response body wrapping resultNodeC7 at the envelope path for
the action GetThing. -/
def bodyJsonC7 : JsVal :=
  JsVal.obj [("s:Envelope", JsVal.obj [("s:Body",
    JsVal.obj [("u:GetThingResponse", resultNodeC7)])])]

/-- A snapshot with one member whose volume and mutestate were captured. -/
def snapshotC8 : GroupSnapshot :=
  { CurrentURI := "x-rincon-queue:RINCON_X#0", CurrentURIMetadata := "", NrTracks := 3,
    Track := 2, RelTime := "0:00:30", TrackDuration := "0:04:00",
    memberData := [{ volume := 25, mutestate := some "off" }] }

/-! Helper lemmas. -/

/-- Characters produced by the per-character translation never include the
angle brackets or the two quote characters. -/
theorem encodeXmlChar_no_special (c : Char) :
    ∀ d ∈ (encodeXmlChar c).data, d ≠ '<' ∧ d ≠ '>' ∧ d ≠ '\'' ∧ d ≠ '"' := by
  unfold encodeXmlChar
  split
  · decide
  · split
    · decide
    · split
      · decide
      · split
        · decide
        · split
          · decide
          · intro d hd
            have hdc : d = c := by
              have h : (String.mk [c]).data = [c] := rfl
              rw [h] at hd
              simpa using hd
            subst hdc
            rename_i h1 h2 h3 h4 h5
            exact ⟨h1, h2, h4, h5⟩

/-- A character outside the five special characters translates to itself. -/
theorem encodeXmlChar_id (c : Char)
    (h : c ≠ '<' ∧ c ≠ '>' ∧ c ≠ '&' ∧ c ≠ '\'' ∧ c ≠ '"') :
    encodeXmlChar c = String.mk [c] := by
  obtain ⟨h1, h2, h3, h4, h5⟩ := h
  unfold encodeXmlChar
  rw [if_neg h1, if_neg h2, if_neg h3, if_neg h4, if_neg h5]

/-- C10: encodeXml maps each of the five special XML characters to its
entity; consequently its output contains no angle bracket, apostrophe or
double quote at all, and an input containing none of the five characters is
returned unchanged. -/
theorem encodeXml_spec (s : String) :
    (encodeXmlChar '<' = "&lt;" ∧ encodeXmlChar '>' = "&gt;" ∧ encodeXmlChar '&' = "&amp;"
      ∧ encodeXmlChar '\'' = "&apos;" ∧ encodeXmlChar '"' = "&quot;")
    ∧ (∀ d ∈ (encodeXml s).data, d ≠ '<' ∧ d ≠ '>' ∧ d ≠ '\'' ∧ d ≠ '"')
    ∧ ((∀ c ∈ s.data, c ≠ '<' ∧ c ≠ '>' ∧ c ≠ '&' ∧ c ≠ '\'' ∧ c ≠ '"') → encodeXml s = s) := by
  refine ⟨by decide, ?_, ?_⟩
  · intro d hd
    have : (encodeXml s).data = (s.data.map (fun c => (encodeXmlChar c).data)).flatten := rfl
    rw [this] at hd
    rw [List.mem_flatten] at hd
    obtain ⟨l, hl, hdl⟩ := hd
    rw [List.mem_map] at hl
    obtain ⟨c, _, hcl⟩ := hl
    exact encodeXmlChar_no_special c d (hcl ▸ hdl)
  · intro h
    have key : ∀ l : List Char,
        (∀ c ∈ l, c ≠ '<' ∧ c ≠ '>' ∧ c ≠ '&' ∧ c ≠ '\'' ∧ c ≠ '"') →
        (l.map (fun c => (encodeXmlChar c).data)).flatten = l := by
      intro l
      induction l with
      | nil => intro; rfl
      | cons c t ih =>
        intro hct
        have hc := hct c (by simp)
        have ht : ∀ x ∈ t, x ≠ '<' ∧ x ≠ '>' ∧ x ≠ '&' ∧ x ≠ '\'' ∧ x ≠ '"' :=
          fun x hx => hct x (List.mem_cons_of_mem c hx)
        simp only [List.map_cons, List.flatten_cons, ih ht]
        rw [encodeXmlChar_id c hc]
        rfl
    cases s with
    | mk data =>
      have : encodeXml (String.mk data) = String.mk ((data.map (fun c => (encodeXmlChar c).data)).flatten) := rfl
      rw [this, key data h]

/-- Witness for encodeXml_spec at a concrete input without special
characters. -/
theorem encodeXml_spec_witness : encodeXml "Hello Sonos" = "Hello Sonos" :=
  (encodeXml_spec "Hello Sonos").2.2 (by decide)

/-- The aux indexOf scan returns -1 or an index at least its accumulator. -/
theorem jsIndexOfAux_lower (pat : List Char) :
    ∀ (s : List Char) (i : Nat), jsIndexOfAux pat s i = -1 ∨ (i : Int) ≤ jsIndexOfAux pat s i := by
  intro s
  induction s with
  | nil =>
    intro i
    unfold jsIndexOfAux
    split
    · right; omega
    · left; rfl
  | cons c t ih =>
    intro i
    unfold jsIndexOfAux
    split
    · right; omega
    · rcases ih (i + 1) with h | h
      · left; exact h
      · right; omega

/-- jsIndexOf never returns a value below -1. -/
theorem jsIndexOf_ge (s pat : String) : -1 ≤ jsIndexOf s pat := by
  unfold jsIndexOf
  rcases jsIndexOfAux_lower pat.data s.data 0 with h | h
  · omega
  · omega

/-- C4 counterexample: an input without the sid marker but with the flags
marker beyond position 4 yields a non-empty extraction, although the claim
requires the empty string whenever a marker is absent. -/
theorem getMusicServiceId_absent_marker_ce :
    getMusicServiceId "01234&flags=8300" = "4"
    ∧ jsIndexOf "01234&flags=8300" "?sid=" = -1
    ∧ ("4" : String) ≠ "" := by
  refine ⟨?_, ?_, ?_⟩ <;> decide

/-- C4 amended: for a nonempty input, the guard on the start position is
vacuous (indexOf is at least -1, so start is at least 4); the result is
therefore the substring from indexOf of the sid marker plus 5 up to indexOf
of the flags marker whenever the latter exceeds the former, and the empty
string otherwise.  When both markers are present in that order this is the
substring strictly between them; when the sid marker is absent but the
flags marker sits at index 5 or later, a spurious substring starting at
index 4 is returned instead of the empty string. -/
theorem getMusicServiceId_spec (xuri : String) (hx : xuri ≠ "") :
    (jsIndexOf xuri "&flags=" ≤ jsIndexOf xuri "?sid=" + 5 → getMusicServiceId xuri = "")
    ∧ (jsIndexOf xuri "?sid=" + 5 < jsIndexOf xuri "&flags=" →
        getMusicServiceId xuri
          = jsSubstring xuri (jsIndexOf xuri "?sid=" + 5) (jsIndexOf xuri "&flags=")) := by
  have hge : (1 : Int) < jsIndexOf xuri "?sid=" + 5 := by
    have := jsIndexOf_ge xuri "?sid="
    omega
  constructor
  · intro hle
    unfold getMusicServiceId
    rw [if_pos (by simpa [isTruthyAndNotEmptyStr] using hx)]
    simp only
    rw [if_neg (by omega)]
  · intro hlt
    unfold getMusicServiceId
    rw [if_pos (by simpa [isTruthyAndNotEmptyStr] using hx)]
    simp only
    rw [if_pos (by omega)]

/-- Witness for getMusicServiceId_spec at the example URI of the
specification: the extraction between the two markers yields 201. -/
theorem getMusicServiceId_spec_witness :
    getMusicServiceId exUriC4
      = jsSubstring exUriC4 (jsIndexOf exUriC4 "?sid=" + 5) (jsIndexOf exUriC4 "&flags=")
    ∧ jsSubstring exUriC4 (jsIndexOf exUriC4 "?sid=" + 5) (jsIndexOf exUriC4 "&flags=") = "201" :=
  ⟨(getMusicServiceId_spec exUriC4 (by decide)).2 (by decide), by decide⟩

/-- C9 counterexample: an item without a class (empty upnpClass) is
classified unsupported by the code, although the claim requires the empty
string in that case. -/
theorem computeProcessingType_empty_ce :
    computeProcessingType "" = "unsupported" ∧ ("unsupported" : String) ≠ "" := by
  refine ⟨?_, ?_⟩ <;> decide

/-- C9 amended: membership in the fixed stream class list yields stream,
else membership in the fixed queue class list yields queue, and every other
class, the empty class included, yields unsupported. -/
theorem computeProcessingType_spec (upnpClass : String) :
    (upnpClass ∈ UPNP_CLASSES_STREAM → computeProcessingType upnpClass = "stream")
    ∧ (upnpClass ∉ UPNP_CLASSES_STREAM → upnpClass ∈ UPNP_CLASSES_QUEUE →
        computeProcessingType upnpClass = "queue")
    ∧ (upnpClass ∉ UPNP_CLASSES_STREAM → upnpClass ∉ UPNP_CLASSES_QUEUE →
        computeProcessingType upnpClass = "unsupported") := by
  refine ⟨fun h1 => ?_, fun h1 h2 => ?_, fun h1 h2 => ?_⟩
  · simp [computeProcessingType, h1]
  · simp [computeProcessingType, h1, h2]
  · simp [computeProcessingType, h1, h2]

/-- Witness for computeProcessingType_spec at one class of each list and at
a class in neither list. -/
theorem computeProcessingType_spec_witness :
    computeProcessingType "object.item.audioItem.audioBroadcast" = "stream"
    ∧ computeProcessingType "object.container" = "queue"
    ∧ computeProcessingType "object.container.albumlist" = "unsupported" :=
  ⟨(computeProcessingType_spec "object.item.audioItem.audioBroadcast").1 (by decide),
   (computeProcessingType_spec "object.container").2.1 (by decide) (by decide),
   (computeProcessingType_spec "object.container.albumlist").2.2 (by decide) (by decide)⟩

/-- C3: evaluating getAllPlayerList at a group with one ordinary member and
one member flagged Invisible with the value 1 shows the flagged member is
included in the output, because the source assigns the Invisible attribute
to the visible variable without negation. -/
theorem getAllPlayerList_includes_invisible :
    (getAllPlayerList [groupC3]).map (fun p => (p.uuid, p.isCoordinator, p.groupIndex))
      = [("RINCON_C3A", true, 0), ("RINCON_C3B", false, 0)]
    ∧ groupC3.ZoneGroupMember[1]?.map (fun zm => zm.Invisible) = some (some "1") := by
  refine ⟨?_, ?_⟩ <;> decide

/-- C5 counterexample: an empty and an absent DIDL input are both rejected
with the missing-input error, not answered with an empty sequence. -/
theorem didlXmlToArray_empty_ce :
    didlXmlToArray (some "") (some "item") (.ok (JsVal.obj [])) [] = .error .missingDidlInput
    ∧ didlXmlToArray none (some "item") (.ok (JsVal.obj [])) [] = .error .missingDidlInput :=
  ⟨rfl, rfl⟩

/-- C5 amended: an empty or absent DIDL input raises the missing-input
error at this layer; the empty sequence is instead the result for a
nonempty input whose parse holds no node at the DIDL-Lite item path. -/
theorem didlXmlToArray_empty_spec (didlXml itemName : Option String)
    (parse : Except String JsVal) (services : List MusicService) :
    ((didlXml = none ∨ didlXml = some "") →
       didlXmlToArray didlXml itemName parse services = .error .missingDidlInput)
    ∧ (∀ (x iname : String) (j : JsVal),
        didlXml = some x → x ≠ "" → itemName = some iname → iname ≠ "" →
        parse = .ok j → isTruthyAndNotEmptyVal j = true →
        getNested j ["DIDL-Lite", iname] = none →
        didlXmlToArray didlXml itemName parse services = .ok []) := by
  constructor
  · intro h
    rcases h with h | h <;> subst h <;> rfl
  · intro x iname j hx hxne hi hine hp hj hpath
    subst hx; subst hi; subst hp
    unfold didlXmlToArray
    rw [if_neg (by simp [isTruthyAndNotEmptyStr, hxne])]
    rw [if_neg (by simp [isTruthyAndNotEmptyStr, hine])]
    simp only
    rw [if_neg (by simp [hj])]
    simp only [Option.getD_some]
    rw [hpath]
    rfl

/-- Witness for didlXmlToArray_empty_spec: a nonempty input parsing to a
DIDL-Lite without items yields the empty list. -/
theorem didlXmlToArray_empty_spec_witness :
    didlXmlToArray (some "didl") (some "item")
      (.ok (JsVal.obj [("DIDL-Lite", JsVal.obj [])])) [] = .ok [] :=
  (didlXmlToArray_empty_spec (some "didl") (some "item")
      (.ok (JsVal.obj [("DIDL-Lite", JsVal.obj [])])) []).2
    "didl" "item" (JsVal.obj [("DIDL-Lite", JsVal.obj [])])
    rfl (by decide) rfl (by decide) rfl rfl rfl

/-- Membership in a conditional singleton block. -/
theorem mem_ite_singleton {α : Type} (x a : α) (c : Prop) [Decidable c] :
    (x ∈ (if c then [a] else ([] : List α))) ↔ (c ∧ x = a) := by
  split <;> simp_all

/-- C2 counterexample: a call whose captured content URI carries the
session-bound marker while the notification URI does not: the restore trace
still reapplies the URI, reselects the track and seeks the position,
because the source gates on the notification URI only and gates neither the
track reselect nor the seek. -/
theorem groupNotificationRestore_marker_ce :
    jsIncludes snapshotC2.mediaInfo.CurrentURI "x-sonos-vli" = true
    ∧ PlayerAction.setAVTransportURI snapshotC2.mediaInfo.CurrentURI
        snapshotC2.mediaInfo.CurrentURIMetaData ∈ groupNotificationRestore 1 optionsC2 snapshotC2
    ∧ PlayerAction.selectTrack 2 ∈ groupNotificationRestore 1 optionsC2 snapshotC2
    ∧ PlayerAction.seek "0:01:00" ∈ groupNotificationRestore 1 optionsC2 snapshotC2 := by
  refine ⟨?_, ?_, ?_, ?_⟩ <;> decide

/-- C2 amended: the session-bound gate of the group-notification restore
phase tests the notification URI, not the captured one, and gates only the
URI reapplication and the final Play: the trace reapplies the captured URI
exactly when the notification URI lacks the marker, plays exactly when the
device was playing and the notification URI lacks the marker, and attempts
track reselect and relative-time seek exactly when their own data
conditions hold, independent of any marker. -/
theorem groupNotificationRestore_spec (membersLen : Nat) (options : NotifyOptions)
    (snapshot : NotifySnapshot) :
    (PlayerAction.setAVTransportURI snapshot.mediaInfo.CurrentURI
        snapshot.mediaInfo.CurrentURIMetaData
        ∈ groupNotificationRestore membersLen options snapshot
      ↔ jsIncludes options.uri "x-sonos-vli" = false)
    ∧ (PlayerAction.play ∈ groupNotificationRestore membersLen options snapshot
      ↔ (snapshot.wasPlaying = true ∧ jsIncludes options.uri "x-sonos-vli" = false))
    ∧ (PlayerAction.selectTrack snapshot.positionInfo.Track
        ∈ groupNotificationRestore membersLen options snapshot
      ↔ (snapshot.positionInfo.Track ≠ 0 ∧ 1 < snapshot.positionInfo.Track
          ∧ 1 < snapshot.mediaInfo.NrTracks))
    ∧ (PlayerAction.seek snapshot.positionInfo.RelTime
        ∈ groupNotificationRestore membersLen options snapshot
      ↔ (snapshot.positionInfo.RelTime ≠ ""
          ∧ snapshot.positionInfo.TrackDuration ≠ "0:00:00")) := by
  refine ⟨?_, ?_, ?_, ?_⟩ <;>
    simp [groupNotificationRestore, List.mem_append, mem_ite_singleton, List.mem_map,
      Bool.not_eq_true]

/-- The member loop of the restore succeeds exactly when no attempted
volume or mute call fails, for index lists inside the member data. -/
theorem restoreMembersLoop_ok_iff (o : RestoreOracle) (memberData : List MemberSnap) :
    ∀ idxs : List Nat, (∀ i ∈ idxs, i < memberData.length) →
      ((restoreMembersLoop o memberData idxs).1 = .ok () ↔
        ∀ i ∈ idxs, ((memberData.getD i default).volume ≠ -1 → o.failVolume i = false)
          ∧ ((memberData.getD i default).mutestate ≠ none → o.failMute i = false)) := by
  intro idxs
  induction idxs with
  | nil => intro; simp [restoreMembersLoop]
  | cons i rest ih =>
    intro hb
    have hi : i < memberData.length := hb i (by simp)
    have hrest := fun j hj => hb j (List.mem_cons_of_mem i hj)
    have hmd : memberData[i]? = some memberData[i] := List.getElem?_eq_getElem hi
    have hget : memberData.getD i default = memberData[i] := by
      simp [List.getD, hmd]
    by_cases hv : memberData[i].volume ≠ -1 ∧ o.failVolume i
    · simp only [restoreMembersLoop, hmd]
      rw [if_pos hv]
      constructor
      · intro h; exact absurd h (by simp)
      · intro h
        have := (h i (by simp)).1
        rw [hget] at this
        exact absurd (this hv.1) (by simp [hv.2])
    · by_cases hm : memberData[i].mutestate ≠ none ∧ o.failMute i
      · simp only [restoreMembersLoop, hmd]
        rw [if_neg hv, if_pos hm]
        constructor
        · intro h; exact absurd h (by simp)
        · intro h
          have := (h i (by simp)).2
          rw [hget] at this
          exact absurd (this hm.1) (by simp [hm.2])
      · simp only [restoreMembersLoop, hmd]
        rw [if_neg hv, if_neg hm]
        rw [ih hrest]
        constructor
        · intro h
          intro j hj
          rcases List.mem_cons.mp hj with hje | hjr
          · subst hje
            rw [hget]
            constructor
            · intro hvol
              by_contra hf
              exact hv ⟨hvol, by revert hf; cases o.failVolume j <;> simp⟩
            · intro hmut
              by_contra hf
              exact hm ⟨hmut, by revert hf; cases o.failMute j <;> simp⟩
          · exact h j hjr
        · intro h j hj
          exact h j (List.mem_cons_of_mem i hj)

/-- Every setVolume action of the member loop trace reapplies the captured
volume of its member, and only when that volume is not -1. -/
theorem restoreMembersLoop_setVolume (o : RestoreOracle) (memberData : List MemberSnap) :
    ∀ (idxs : List Nat) (i : Nat) (v : Int),
      PlayerAction.setVolume i (some v) ∈ (restoreMembersLoop o memberData idxs).2 →
      ∃ md, memberData[i]? = some md ∧ md.volume = v ∧ v ≠ -1 := by
  intro idxs
  induction idxs with
  | nil => intro i v h; simp [restoreMembersLoop] at h
  | cons j rest ih =>
    intro i v h
    unfold restoreMembersLoop at h
    cases hmd : memberData[j]? with
    | none => rw [hmd] at h; simp at h
    | some md =>
      rw [hmd] at h
      simp only at h
      by_cases hv : md.volume ≠ -1 ∧ o.failVolume j
      · rw [if_pos hv] at h
        simp only [mem_ite_singleton] at h
        obtain ⟨hvol, heq⟩ := h
        cases heq
        exact ⟨md, hmd, rfl, hvol⟩
      · rw [if_neg hv] at h
        by_cases hm : md.mutestate ≠ none ∧ o.failMute j
        · rw [if_pos hm] at h
          simp only [List.mem_append, mem_ite_singleton] at h
          rcases h with ⟨hvol, heq⟩ | ⟨_, heq⟩
          · cases heq
            exact ⟨md, hmd, rfl, hvol⟩
          · exact absurd heq (by simp)
        · rw [if_neg hm] at h
          simp only [List.mem_append, mem_ite_singleton] at h
          rcases h with (⟨hvol, heq⟩ | ⟨_, heq⟩) | hrec
          · cases heq
            exact ⟨md, hmd, rfl, hvol⟩
          · exact absurd heq (by simp)
          · exact ih i v hrec

/-- Every setMuted action of the member loop trace reapplies the captured
mutestate of its member, and only when that mutestate is not null. -/
theorem restoreMembersLoop_setMuted (o : RestoreOracle) (memberData : List MemberSnap) :
    ∀ (idxs : List Nat) (i : Nat) (b : Bool),
      PlayerAction.setMuted i b ∈ (restoreMembersLoop o memberData idxs).2 →
      ∃ md, memberData[i]? = some md ∧ md.mutestate ≠ none
        ∧ b = decide (md.mutestate = some "on") := by
  intro idxs
  induction idxs with
  | nil => intro i b h; simp [restoreMembersLoop] at h
  | cons j rest ih =>
    intro i b h
    unfold restoreMembersLoop at h
    cases hmd : memberData[j]? with
    | none => rw [hmd] at h; simp at h
    | some md =>
      rw [hmd] at h
      simp only at h
      by_cases hv : md.volume ≠ -1 ∧ o.failVolume j
      · rw [if_pos hv] at h
        simp only [mem_ite_singleton] at h
        exact absurd h.2 (by simp)
      · rw [if_neg hv] at h
        by_cases hm : md.mutestate ≠ none ∧ o.failMute j
        · rw [if_pos hm] at h
          simp only [List.mem_append, mem_ite_singleton] at h
          rcases h with ⟨_, heq⟩ | ⟨hmut, heq⟩
          · exact absurd heq (by simp)
          · cases heq
            exact ⟨md, hmd, hmut, rfl⟩
        · rw [if_neg hm] at h
          simp only [List.mem_append, mem_ite_singleton] at h
          rcases h with (⟨_, heq⟩ | ⟨hmut, heq⟩) | hrec
          · exact absurd heq (by simp)
          · cases heq
            exact ⟨md, hmd, hmut, rfl⟩
          · exact ih i b hrec

/-- C8: when the initial transport-URI call succeeds and the member data
covers the member list, the restore returns success exactly when no
attempted member volume or mute call fails — in particular failures of the
track reselect or the relative-time seek never affect the result, since the
oracle flags for those calls do not occur in the condition — and the trace
reapplies a volume only for members with captured volume other than -1 and
a mute only for members with captured mutestate other than null. -/
theorem restoreGroupSnapshot_spec (membersLen : Nat) (snapshot : GroupSnapshot)
    (o : RestoreOracle) (huri : o.failSetUri = false)
    (hlen : membersLen ≤ snapshot.memberData.length) :
    ((restoreGroupSnapshot membersLen snapshot o).1 = .ok true ↔
       ∀ i < membersLen,
         ((snapshot.memberData.getD i default).volume ≠ -1 → o.failVolume i = false)
         ∧ ((snapshot.memberData.getD i default).mutestate ≠ none → o.failMute i = false))
    ∧ (∀ i v, PlayerAction.setVolume i (some v) ∈ (restoreGroupSnapshot membersLen snapshot o).2 →
         (snapshot.memberData.getD i default).volume = v ∧ v ≠ -1)
    ∧ (∀ i b, PlayerAction.setMuted i b ∈ (restoreGroupSnapshot membersLen snapshot o).2 →
         (snapshot.memberData.getD i default).mutestate ≠ none
         ∧ b = decide ((snapshot.memberData.getD i default).mutestate = some "on")) := by
  have hrange : ∀ i ∈ List.range membersLen, i < snapshot.memberData.length := by
    intro i hi
    have := List.mem_range.mp hi
    omega
  have hloop := restoreMembersLoop_ok_iff o snapshot.memberData (List.range membersLen) hrange
  unfold restoreGroupSnapshot
  rw [huri]
  simp only [Bool.false_eq_true, if_false]
  refine ⟨?_, ?_, ?_⟩
  · cases hres : (restoreMembersLoop o snapshot.memberData (List.range membersLen)).1 with
    | ok u =>
      cases u
      rw [hres] at hloop
      simp only [hres]
      simp only [true_iff] at hloop
      constructor
      · intro _ i hi
        exact hloop i (List.mem_range.mpr hi)
      · intro _; trivial
    | error e =>
      rw [hres] at hloop
      simp only [hres]
      constructor
      · intro h; exact absurd h (by simp)
      · intro h
        exact absurd ((hloop.mpr (fun i hi => h i (List.mem_range.mp hi)))) (by simp)
  · intro i v hmem
    have hmem2 : PlayerAction.setVolume i (some v)
        ∈ (restoreMembersLoop o snapshot.memberData (List.range membersLen)).2 := by
      rcases hres : (restoreMembersLoop o snapshot.memberData (List.range membersLen)).1 with _ | e <;>
        · rw [hres] at hmem
          simp only [hres, List.mem_append, mem_ite_singleton, List.mem_singleton] at hmem
          rcases hmem with ((h | ⟨_, h⟩) | ⟨_, h⟩) | h
          · exact absurd h (by simp)
          · exact absurd h (by simp)
          · exact absurd h (by simp)
          · exact h
    obtain ⟨md, hmd, hvol, hne⟩ := restoreMembersLoop_setVolume o snapshot.memberData _ i v hmem2
    refine ⟨?_, hne⟩
    rw [List.getD, List.get?_eq_getElem?, hmd]
    simpa using hvol
  · intro i b hmem
    have hmem2 : PlayerAction.setMuted i b
        ∈ (restoreMembersLoop o snapshot.memberData (List.range membersLen)).2 := by
      rcases hres : (restoreMembersLoop o snapshot.memberData (List.range membersLen)).1 with _ | e <;>
        · rw [hres] at hmem
          simp only [hres, List.mem_append, mem_ite_singleton, List.mem_singleton] at hmem
          rcases hmem with ((h | ⟨_, h⟩) | ⟨_, h⟩) | h
          · exact absurd h (by simp)
          · exact absurd h (by simp)
          · exact absurd h (by simp)
          · exact h
    obtain ⟨md, hmd, hmut, hb⟩ := restoreMembersLoop_setMuted o snapshot.memberData _ i b hmem2
    constructor
    · rw [List.getD, List.get?_eq_getElem?, hmd]
      simpa using hmut
    · rw [List.getD, List.get?_eq_getElem?, hmd]
      simpa using hb

/-- Witness for restoreGroupSnapshot_spec: with a member whose volume and
mute were captured and an oracle failing nothing, the restore returns
success. -/
theorem restoreGroupSnapshot_spec_witness :
    (restoreGroupSnapshot 1 snapshotC8 {}).1 = .ok true :=
  ((restoreGroupSnapshot_spec 1 snapshotC8 {} rfl (by decide)).1).mpr (by decide)

/-- A one-key path through getNested is exactly a direct property access. -/
theorem getNested_single (v : JsVal) (k : String) : getNested v [k] = getProp v k := by
  cases h : getProp v k <;> simp [getNested, h]

/-- C6: whenever some required input name of the action template is absent
from the argument map (presence, not truthiness, is what isValidProperty
checks), executeActionV6 returns a missing-argument error naming such an
input, and the transport is never invoked. -/
theorem executeActionV6_missing_arg (endpoint actionName : String)
    (inArgs outArgs : List String) (actionInArgs response : JsVal)
    (parseBody : Except String JsVal)
    (h : ∃ p ∈ inArgs, getProp actionInArgs p = none) :
    (executeActionV6 endpoint actionName inArgs outArgs actionInArgs response parseBody).2 = false
    ∧ ∃ p ∈ inArgs, getProp actionInArgs p = none
        ∧ (executeActionV6 endpoint actionName inArgs outArgs actionInArgs response parseBody).1
            = .error (.missingArg p) := by
  have hsome : (inArgs.find? (fun property => !isValidProperty actionInArgs [property])).isSome := by
    rw [List.find?_isSome]
    obtain ⟨p, hp, hnone⟩ := h
    exact ⟨p, hp, by simp [isValidProperty, getNested_single, hnone]⟩
  obtain ⟨q, hq⟩ := Option.isSome_iff_exists.mp hsome
  have hqmem : q ∈ inArgs := List.mem_of_find?_eq_some hq
  have hqprop := List.find?_some hq
  have hqnone : getProp actionInArgs q = none := by
    simp only [isValidProperty, getNested_single] at hqprop
    simpa [Option.not_isSome_iff_eq_none] using hqprop
  constructor
  · unfold executeActionV6
    rw [hq]
  · exact ⟨q, hqmem, hqnone, by unfold executeActionV6; rw [hq]⟩

/-- Witness for executeActionV6_missing_arg: the Play action template
requires InstanceID and Speed; an argument map without Speed never reaches
the transport. -/
theorem executeActionV6_missing_arg_witness :
    (executeActionV6 "/MediaRenderer/AVTransport/Control" "Play" ["InstanceID", "Speed"] []
      (JsVal.obj [("InstanceID", JsVal.num 0)]) (JsVal.obj []) (.error "not sent")).2 = false :=
  (executeActionV6_missing_arg "/MediaRenderer/AVTransport/Control" "Play"
    ["InstanceID", "Speed"] [] (JsVal.obj [("InstanceID", JsVal.num 0)]) (JsVal.obj [])
    (.error "not sent") ⟨"Speed", by decide, rfl⟩).1

/-- Deleting one key leaves the lookup of every other key unchanged. -/
theorem getProp_deleteProp (v : JsVal) (delKey key : String) (hne : key ≠ delKey) :
    getProp (deleteProp v delKey) key = getProp v key := by
  cases v with
  | obj fields =>
    simp only [deleteProp, getProp]
    induction fields with
    | nil => rfl
    | cons kv rest ih =>
      by_cases hd : kv.1 = delKey
      · have hk : ¬(kv.1 = key) := fun hh => hne (hh ▸ hd)
        rw [List.filter_cons_of_neg (by simp [hd])]
        rw [List.find?_cons_of_neg rest (by simp [hk])]
        exact ih
      · rw [List.filter_cons_of_pos (by simp [hd])]
        by_cases hk : kv.1 = key
        · rw [List.find?_cons_of_pos _ (by simp [hk]),
            List.find?_cons_of_pos rest (by simp [hk])]
        · rw [List.find?_cons_of_neg _ (by simp [hk]),
            List.find?_cons_of_neg rest (by simp [hk])]
          exact ih
  | null => rfl
  | str s => rfl
  | num n => rfl
  | arr l => rfl

/-- C7 amended: for a call that passes the input check and receives a
well-formed 200 response whose response node carries the exact expected
namespace: empty expected outputs give the boolean true; exactly one
expected output gives that output value unwrapped; two or more expected
outputs give the response node with the namespace attribute removed, which
contains every expected output key but may also contain additional keys the
device returned; an expected output missing from the node gives an error
naming it. -/
theorem executeActionV6_success_shape (endpoint actionName : String)
    (inArgs outArgs : List String) (actionInArgs response : JsVal)
    (bodyJson resultNode : JsVal)
    (hin : ∀ p ∈ inArgs, (getProp actionInArgs p).isSome)
    (hsc : getProp response "statusCode" = some (JsVal.num 200))
    (hbody : (getProp response "body").isSome)
    (hnode : getNested bodyJson ["s:Envelope", "s:Body", "u:" ++ actionName ++ "Response"]
        = some resultNode)
    (hns : getProp resultNode "xmlns:u"
        = some (JsVal.str ("urn:schemas-upnp-org:service:" ++ serviceNameOf endpoint ++ ":1"))) :
    (outArgs = [] →
      (executeActionV6 endpoint actionName inArgs outArgs actionInArgs response
          (.ok bodyJson)).1 = .ok .boolTrue)
    ∧ ((∀ p ∈ outArgs, (getProp resultNode p).isSome) → "xmlns:u" ∉ outArgs →
        (∀ p1, outArgs = [p1] →
          ∃ v, getProp resultNode p1 = some v
            ∧ (executeActionV6 endpoint actionName inArgs outArgs actionInArgs response
                (.ok bodyJson)).1 = .ok (.val v))
        ∧ (2 ≤ outArgs.length →
            (executeActionV6 endpoint actionName inArgs outArgs actionInArgs response
                (.ok bodyJson)).1 = .ok (.val (deleteProp resultNode "xmlns:u"))
            ∧ ∀ p ∈ outArgs, (getProp (deleteProp resultNode "xmlns:u") p).isSome))
    ∧ ((∃ p ∈ outArgs, getProp resultNode p = none) →
        ∃ p ∈ outArgs, getProp resultNode p = none
          ∧ (executeActionV6 endpoint actionName inArgs outArgs actionInArgs response
              (.ok bodyJson)).1 = .error (.missingOutArg p)) := by
  have hfind : inArgs.find? (fun property => !isValidProperty actionInArgs [property]) = none := by
    rw [List.find?_eq_none]
    intro p hp
    simp [isValidProperty, getNested_single, hin p hp]
  have hb : (!isValidProperty response ["body"]) = false := by
    simp [isValidProperty, getNested_single, hbody]
  have hcore : executeActionV6 endpoint actionName inArgs outArgs actionInArgs response
      (.ok bodyJson)
      = (if outArgs.isEmpty then (.ok .boolTrue, true)
         else
           match outArgs.find? (fun property => !isValidProperty resultNode [property]) with
           | some property => (.error (.missingOutArg property), true)
           | none =>
             let cleaned := deleteProp resultNode "xmlns:u"
             if outArgs.length = 1 then
               match getProp cleaned (outArgs.headD "") with
               | some v => (.ok (.val v), true)
               | none => (.ok .undef, true)
             else (.ok (.val cleaned), true)) := by
    unfold executeActionV6
    simp only [hfind, hsc, hb, hnode, hns]
    rw [if_neg (show ¬((200 : Int) ≠ 200) from fun hh => hh rfl)]
    rw [if_neg (show ¬("urn:schemas-upnp-org:service:" ++ serviceNameOf endpoint ++ ":1"
        ≠ "urn:schemas-upnp-org:service:" ++ serviceNameOf endpoint ++ ":1") from fun hh => hh rfl)]
    simp only [Bool.false_eq_true, if_false]
  refine ⟨?_, ?_, ?_⟩
  · intro h
    subst h
    rw [hcore]
    rfl
  · intro houts hxm
    have houtfind : outArgs.find? (fun property => !isValidProperty resultNode [property])
        = none := by
      rw [List.find?_eq_none]
      intro p hp
      simp [isValidProperty, getNested_single, houts p hp]
    constructor
    · intro p1 h1
      subst h1
      have hp1 : (getProp resultNode p1).isSome := houts p1 (by simp)
      obtain ⟨v, hv⟩ := Option.isSome_iff_exists.mp hp1
      refine ⟨v, hv, ?_⟩
      rw [hcore]
      rw [houtfind]
      have hcl : getProp (deleteProp resultNode "xmlns:u") p1 = some v := by
        have hne : p1 ≠ "xmlns:u" := fun hh => hxm (by simp [hh])
        rw [getProp_deleteProp resultNode "xmlns:u" p1 hne]
        exact hv
      simp [hcl]
    · intro h2
      have hne1 : ¬(outArgs.length = 1) := by omega
      have hnemp : outArgs.isEmpty = false := by
        cases outArgs with
        | nil => simp at h2
        | cons a t => rfl
      rw [hcore, hnemp]
      simp only [Bool.false_eq_true, if_false]
      rw [houtfind]
      refine ⟨by simp [if_neg hne1], ?_⟩
      intro p hp
      have hpx : p ≠ "xmlns:u" := fun hh => hxm (hh ▸ hp)
      rw [getProp_deleteProp resultNode "xmlns:u" p hpx]
      exact houts p hp
  · intro hmiss
    have hsome : (outArgs.find? (fun property => !isValidProperty resultNode [property])).isSome := by
      rw [List.find?_isSome]
      obtain ⟨p, hp, hnone⟩ := hmiss
      exact ⟨p, hp, by simp [isValidProperty, getNested_single, hnone]⟩
    obtain ⟨q, hq⟩ := Option.isSome_iff_exists.mp hsome
    have hqmem : q ∈ outArgs := List.mem_of_find?_eq_some hq
    have hqprop := List.find?_some hq
    have hqnone : getProp resultNode q = none := by
      simp only [isValidProperty, getNested_single] at hqprop
      simpa [Option.not_isSome_iff_eq_none] using hqprop
    have hnemp : outArgs.isEmpty = false := by
      cases outArgs with
      | nil => simp at hqmem
      | cons a t => rfl
    refine ⟨q, hqmem, hqnone, ?_⟩
    rw [hcore, hnemp]
    simp only [Bool.false_eq_true, if_false]
    rw [hq]

/-- C7 counterexample: a successful call with two expected outputs A and B
whose response node also carries the extra key C: the returned map still
holds C, so the result is not a map containing exactly the expected output
keys. -/
theorem executeActionV6_extra_keys_ce :
    (executeActionV6 "/MediaRenderer/AVTransport/Control" "GetThing" [] ["A", "B"]
        (JsVal.obj []) responseC7 (.ok bodyJsonC7)).1
      = .ok (.val (JsVal.obj [("A", JsVal.str "1"), ("B", JsVal.str "2"), ("C", JsVal.str "3")]))
    ∧ ("C" ∉ (["A", "B"] : List String))
    ∧ getProp (JsVal.obj [("A", JsVal.str "1"), ("B", JsVal.str "2"), ("C", JsVal.str "3")]) "C"
        = some (JsVal.str "3") :=
  ⟨rfl, by decide, rfl⟩

/-- Witness for executeActionV6_success_shape: with one expected output A,
the call unwraps and returns the scalar value of A. -/
theorem executeActionV6_success_shape_witness :
    ∃ v, getProp resultNodeC7 "A" = some v
      ∧ (executeActionV6 "/MediaRenderer/AVTransport/Control" "GetThing" [] ["A"]
          (JsVal.obj []) responseC7 (.ok bodyJsonC7)).1 = .ok (.val v) :=
  ((executeActionV6_success_shape "/MediaRenderer/AVTransport/Control" "GetThing" [] ["A"]
      (JsVal.obj []) responseC7 bodyJsonC7 resultNodeC7
      (fun p hp => absurd hp (List.not_mem_nil p)) rfl rfl rfl rfl).2.1
    (fun p hp => by
      have hp1 : p = "A" := by simpa using hp
      subst hp1
      rfl)
    (by decide)).1 "A" rfl

/-- Updating the index-0 entry twice keeps only the last update, because
the update overwrites all three filled fields and reads none of them. -/
theorem updateCoord_updateCoord (m : SortedMember) (a b : ZoneMember) :
    updateCoord (updateCoord m a) b = updateCoord m b := rfl

/-- Folding the last-match scan from an arbitrary accumulator equals the
scan from none, with the accumulator as fallback. -/
theorem lastMatch_foldl (g : Group) (zms : List ZoneMember) :
    ∀ acc : Option ZoneMember,
      zms.foldl (fun a zm => if zm.locationHostname = g.host then some zm else a) acc
        = (zms.foldl (fun a zm => if zm.locationHostname = g.host then some zm else a)
            none).elim acc some := by
  induction zms with
  | nil => intro acc; simp
  | cons zm rest ih =>
    intro acc
    simp only [List.foldl_cons]
    by_cases h : zm.locationHostname = g.host
    · rw [if_pos h, if_pos h]
      rw [ih (some zm)]
      cases hfold : rest.foldl
          (fun a zm => if zm.locationHostname = g.host then some zm else a) none <;>
        simp [hfold]
    · rw [if_neg h, if_neg h]
      exact ih acc

/-- The cumulative index-0 update of the member loop applies exactly the
last member at the coordinator hostname, when one exists. -/
theorem applyHostUpdates_eq (g : Group) (zms : List ZoneMember) :
    ∀ m : SortedMember,
      applyHostUpdates g m zms
        = (zms.foldl (fun a zm => if zm.locationHostname = g.host then some zm else a)
            none).elim m (fun zm => updateCoord m zm) := by
  induction zms with
  | nil => intro m; simp [applyHostUpdates]
  | cons zm rest ih =>
    intro m
    simp only [applyHostUpdates, List.foldl_cons]
    by_cases h : zm.locationHostname = g.host
    · rw [if_pos h, if_pos h]
      rw [ih (updateCoord m zm)]
      rw [lastMatch_foldl g rest (some zm)]
      cases hfold : rest.foldl
          (fun a zm => if zm.locationHostname = g.host then some zm else a) none with
      | none => simp [hfold]
      | some z => simp [hfold, updateCoord_updateCoord]
    · rw [if_neg h, if_neg h]
      exact ih m

/-- The member loop of sortedGroupArray keeps the seed at index 0 (with its
cumulative updates) and appends the pushed entries after the existing
tail. -/
theorem sortedGroupArrayGo_structure (g : Group) (zms : List ZoneMember) :
    ∀ (m0 : SortedMember) (tail : List SortedMember),
      sortedGroupArrayGo g (m0 :: tail) zms
        = applyHostUpdates g m0 zms :: (tail ++ pushedMembers g zms) := by
  induction zms with
  | nil => intro m0 tail; simp [sortedGroupArrayGo, applyHostUpdates, pushedMembers]
  | cons zm rest ih =>
    intro m0 tail
    by_cases h : zm.locationHostname = g.host
    · have hne : ¬(zm.locationHostname ≠ g.host) := by simpa using h
      simp only [sortedGroupArrayGo, if_neg hne, List.modifyHead]
      rw [ih (updateCoord m0 zm) tail]
      simp only [applyHostUpdates, if_pos h]
      congr 1
      simp [pushedMembers, List.filter_cons, h]
    · simp only [sortedGroupArrayGo, if_pos h]
      rw [show (m0 :: tail) ++ [pushedEntry zm] = m0 :: (tail ++ [pushedEntry zm])
          from rfl]
      rw [ih m0 (tail ++ [pushedEntry zm])]
      simp only [applyHostUpdates, if_neg h]
      congr 1
      rw [List.append_assoc]
      congr 1
      simp [pushedMembers, List.filter_cons, h]

/-- The group index returned by the player scan is inside the group list. -/
theorem findPlayerGroup_lt (sbn : Bool) (pn sh : String) :
    ∀ (gs : List Group) (gi : Nat) (uh : String),
      findPlayerGroup sbn pn sh gs = some (gi, uh) → gi < gs.length := by
  intro gs
  induction gs with
  | nil => intro gi uh h; simp [findPlayerGroup] at h
  | cons g rest ih =>
    intro gi uh h
    unfold findPlayerGroup at h
    cases hf : g.ZoneGroupMember.find? (memberMatches sbn pn sh) with
    | some zm =>
      rw [hf] at h
      have hp := Option.some_inj.mp h
      have : gi = 0 := ((Prod.mk.injEq _ _ _ _).mp hp).1.symm
      simp [this]
    | none =>
      rw [hf] at h
      simp only at h
      rw [Option.map_eq_some'] at h
      obtain ⟨⟨gi', uh'⟩, hrec, heq⟩ := h
      have hgi : gi = gi' + 1 := by
        have := (Prod.mk.injEq _ _ _ _).mp heq
        omega
      have := ih gi' uh' hrec
      simp [hgi, List.length_cons]
      omega

/-- C1 counterexample: a one-group response whose declared Coordinator UUID
differs from the UUID of the member at the group host address: resolution
by hostname succeeds and the index-0 member carries the UUID of the
host-matched member, not the declared coordinator id. -/
theorem getGroupMemberDataV2_coordinator_ce :
    getGroupMemberDataV2 [groupC1ce] "192.168.10.1" none
      = .ok { playerIndex := 0,
              members := [{ urlHostname := "192.168.10.1", urlPort := "1400",
                            baseUrl := "http://192.168.10.1:1400",
                            sonosName := some "Living", uuid := some "RINCON_BBBB",
                            invisible := some false }],
              groupId := "RINCON_AAAA:12", groupName := "Living" }
    ∧ groupC1ce.Coordinator = "RINCON_AAAA"
    ∧ some ("RINCON_BBBB" : String) ≠ some groupC1ce.Coordinator := by
  refine ⟨?_, ?_, ?_⟩
  · rfl
  · rfl
  · decide

/-- C1 amended: the source identifies the coordinator by the group host
field, not by the declared Coordinator UUID.  When resolution succeeds on a
group holding a member at the group host whose computed invisible flag is
false, the returned members list has at index 0 an entry whose urlHostname
is the group host and whose uuid is the UUID of the last such host-matched
member; that uuid equals the declared coordinator id exactly in the
consistent topologies where the host-matched member carries it. -/
theorem getGroupMemberDataV2_coordinator_spec
    (allGroupsData : List Group) (sonosHost : String) (playerName : Option String)
    (gi : Nat) (uh : String) (g : Group) (zm : ZoneMember)
    (hfind : findPlayerGroup (jsTruthyOptStr playerName) (playerName.getD "") sonosHost
        allGroupsData = some (gi, uh))
    (hg : allGroupsData[gi]? = some g)
    (hlast : lastHostMatch g = some zm)
    (hflag : memberInvisibleFlag zm = false) :
    ∃ r, getGroupMemberDataV2 allGroupsData sonosHost playerName = .ok r
      ∧ r.members.head? = some (updateCoord (coordInit g) zm)
      ∧ (updateCoord (coordInit g) zm).urlHostname = g.host
      ∧ (updateCoord (coordInit g) zm).uuid = some zm.UUID
      ∧ (zm.UUID = g.Coordinator →
          (updateCoord (coordInit g) zm).uuid = some g.Coordinator) := by
  have hlt : gi < allGroupsData.length := findPlayerGroup_lt _ _ _ allGroupsData gi uh hfind
  have hfold : g.ZoneGroupMember.foldl
      (fun acc zm => if zm.locationHostname = g.host then some zm else acc) none = some zm := by
    have := hlast
    unfold lastHostMatch at this
    exact this
  have hsorted : sortedGroupArray allGroupsData (gi : Int)
      = .ok (updateCoord (coordInit g) zm :: pushedMembers g g.ZoneGroupMember) := by
    unfold sortedGroupArray
    rw [if_neg (by omega)]
    simp only [Int.toNat_natCast, hg]
    rw [sortedGroupArrayGo_structure g g.ZoneGroupMember (coordInit g) []]
    rw [applyHostUpdates_eq g g.ZoneGroupMember (coordInit g)]
    rw [hfold]
    rfl
  refine ⟨{ playerIndex :=
                (((updateCoord (coordInit g) zm :: pushedMembers g g.ZoneGroupMember).filter
                    (fun m => m.invisible = some false)).findIdx?
                  (fun m => m.urlHostname = uh)).elim (-1 : Int) (fun i => (i : Int)),
            members := (updateCoord (coordInit g) zm :: pushedMembers g g.ZoneGroupMember).filter
                (fun m => m.invisible = some false),
            groupId := g.ID, groupName := g.Name }, ?_, ?_, rfl, rfl, fun he => by
        rw [show (updateCoord (coordInit g) zm).uuid = some zm.UUID from rfl, he]⟩
  · unfold getGroupMemberDataV2
    simp only [hfind, hsorted, hg]
    split
    · rename_i i heq
      rw [heq]
      rfl
    · rename_i heq
      rw [heq]
      rfl
  · rw [List.filter_cons_of_pos (by simp [updateCoord, hflag])]
    rfl

/-- Witness for getGroupMemberDataV2_coordinator_spec at a consistent
two-member topology: resolution by the coordinator hostname puts the
declared coordinator at index 0. -/
theorem getGroupMemberDataV2_coordinator_spec_witness :
    ∃ r, getGroupMemberDataV2 [groupC1w] "192.168.20.1" none = .ok r
      ∧ r.members.head? = some (updateCoord (coordInit groupC1w) zmC1w)
      ∧ (updateCoord (coordInit groupC1w) zmC1w).urlHostname = groupC1w.host
      ∧ (updateCoord (coordInit groupC1w) zmC1w).uuid = some zmC1w.UUID
      ∧ (zmC1w.UUID = groupC1w.Coordinator →
          (updateCoord (coordInit groupC1w) zmC1w).uuid = some groupC1w.Coordinator) :=
  getGroupMemberDataV2_coordinator_spec [groupC1w] "192.168.20.1" none 0 "192.168.20.1"
    groupC1w zmC1w (by decide) (by decide) (by decide) (by decide)

end SonosPlus
